import Mathlib

/-!
# Strobe timing generator (`src/Strobe/strobe.c`)

A shallow embedding of the periodic strobe daemon: the GPIO set/clear
registers, the timerfd helpers `make_periodic` and `wait_period`, the emitter
loop `thread_1`, and the command switch of `main`.

Calls into the operating system and libc are recorded as `Event`s in a trace;
what the operating system answers (file descriptors, read results, the time of
day, whether `fopen` yields a handle) is an explicit input.
-/

namespace Strobe

/-! ## Constants (strobe.c:93-95) -/

/-- The `STROBE_PIN` constant, strobe.c:93. -/
def STROBE_PIN : Nat := 21

/-- The `MAXLINE` constant, strobe.c:95. -/
def MAXLINE : Nat := 1024

/-- The bit written to the set and clear registers, `1<<STROBE_PIN`. -/
def STROBE_BIT : Nat := 1 <<< STROBE_PIN

/-! ## GPIO registers (strobe.c:84-87)

The pin levels of bank 0 are one word; bit `g` is the level of pin `g`. -/

/-- The write `GPIO_SET = v`: "sets bits which are 1 ignores bits which are 0". -/
def GPIO_SET (levels v : Nat) : Nat := levels ||| v

/-- The write `GPIO_CLR = v`: "clears bits which are 1 ignores bits which are 0". -/
def GPIO_CLR (levels v : Nat) : Nat := levels ^^^ (levels &&& v)

/-- The read `GET_GPIO(g)`: "0 if LOW, (1<<g) if HIGH". -/
def GET_GPIO (levels g : Nat) : Nat := levels &&& (1 <<< g)

/-- The strobe line is at its idle (high) level. -/
def line_high (levels : Nat) : Bool := GET_GPIO levels STROBE_PIN != 0

/-! ## Data (strobe.c:105-111) -/

/-- The `struct periodic_info`: the timer descriptor and the 64-bit unsigned
`wakeups_missed`. -/
structure periodic_info where
  timer_fd : Int
  wakeups_missed : Nat
  deriving DecidableEq

/-- The `struct timeval` filled in by `gettimeofday`. -/
structure timeval where
  tv_sec : Int
  tv_usec : Int
  deriving DecidableEq

/-- The `struct timespec` of an `itimerspec`. -/
structure timespec where
  tv_sec : Int
  tv_nsec : Int
  deriving DecidableEq

/-- The externally visible actions of the program, in program order. -/
inductive Event where
  | timerfd_create (ret : Int)
  | timerfd_settime (fd : Int) (it_interval it_value : timespec)
  | gpio_clr (v : Nat)
  | gpio_set (v : Nat)
  | gettimeofday (ts : timeval)
  | fopen (ok : Bool)
  | fprintf (text : List Char)
  | fclose
  | usleep (us : Nat)
  | count_inc
  | read_timer (fd : Int)
  | pthread_create
  | syslog_notice
  | closelog
  deriving DecidableEq

/-! ## 32-bit and 64-bit unsigned arithmetic -/

/-- Subtraction of `unsigned int` values. -/
def u32_sub (a b : Nat) : Nat := (a % 2 ^ 32 + 2 ^ 32 - b % 2 ^ 32) % 2 ^ 32

/-- Multiplication of `unsigned int` values. -/
def u32_mul (a b : Nat) : Nat := (a * b) % 2 ^ 32

/-- Division of `unsigned int` values by a non-zero constant. -/
def u32_div (a b : Nat) : Nat := (a % 2 ^ 32) / (b % 2 ^ 32)

/-- Addition of `unsigned long long` values. -/
def u64_add (a b : Nat) : Nat := (a + b) % 2 ^ 64

/-- The value an arithmetic result `x` has as a 32-bit `int`: in range it is
`x` itself; out of range C leaves it undefined and the compiled code wraps in
two's complement. -/
def int_wrap (x : Int) : Int := (x + 2 ^ 31) % 2 ^ 32 - 2 ^ 31

/-! ## make_periodic (strobe.c:168-192) -/

/-- The result of `make_periodic`: the returned `int`, the `info` it filled
in, and the system calls it made. -/
structure MakePeriodic where
  ret : Int
  info : periodic_info
  events : List Event
  deriving DecidableEq

/-- The seconds part `sec = period / 1000000`, strobe.c:184. -/
def period_sec (period : Nat) : Nat := u32_div period 1000000

/-- The nanoseconds part `ns = (period - (sec * 1000000)) * 1000`, strobe.c:185. -/
def period_ns (period : Nat) : Nat :=
  u32_mul (u32_sub period (u32_mul (period_sec period) 1000000)) 1000

/-- The function `make_periodic(period, info)`. `fd` is what `timerfd_create`
returns and `settime_ret` what `timerfd_settime` returns. -/
def make_periodic (fd settime_ret : Int) (period : Nat) : MakePeriodic :=
  let info : periodic_info := { timer_fd := fd, wakeups_missed := 0 }
  if fd = -1 then
    { ret := fd, info := info, events := [Event.timerfd_create fd] }
  else
    let sec := period_sec period
    let ns := period_ns period
    let itv : timespec := { tv_sec := (sec : Int), tv_nsec := (ns : Int) }
    { ret := settime_ret, info := info,
      events := [Event.timerfd_create fd, Event.timerfd_settime fd itv itv] }

/-! ## wait_period (strobe.c:194-208) -/

/-- The function `wait_period(info)`. `rd` is the outcome of the `read` on the
timer descriptor: `none` when it returns -1, `some missed` when it stores the
expiry count `missed`. -/
def wait_period (info : periodic_info) (rd : Option Nat) : periodic_info :=
  match rd with
  | none => info
  | some missed => { info with wakeups_missed := u64_add info.wakeups_missed missed }

/-! ## The timestamp text (strobe.c:229) -/

/-- The character of a decimal digit. -/
def digit_char (d : Nat) : Char := Char.ofNat (48 + d)

/-- The decimal digits of `n`, most significant first, without leading zeros
(`"0"` for zero): what a `%ld` conversion prints for a non-negative value. -/
def dec_digits_fuel : Nat → Nat → List Char
  | 0, _ => []
  | fuel + 1, n =>
    if n < 10 then [digit_char n]
    else dec_digits_fuel fuel (n / 10) ++ [digit_char (n % 10)]

/-- The decimal digits of `n`; the fuel `n + 1` is never used up. -/
def dec_digits (n : Nat) : List Char := dec_digits_fuel (n + 1) n

/-- The conversion `%0<width>ld` of printf: the sign if negative, then zeros up
to the minimum field width, then the digits. -/
def fmt_ld_zero (width : Nat) (v : Int) : List Char :=
  let digits := dec_digits v.natAbs
  if v < 0 then
    '-' :: (List.replicate (width - 1 - digits.length) '0' ++ digits)
  else
    List.replicate (width - digits.length) '0' ++ digits

/-- The text of `fprintf(fp,"%010ld.%06ld\n",ts.tv_sec,ts.tv_usec)`. -/
def time_text (ts : timeval) : List Char :=
  fmt_ld_zero 10 ts.tv_sec ++ '.' :: (fmt_ld_zero 6 ts.tv_usec ++ [Char.ofNat 10])

/-! ### Reading the text back -/

/-- The `width` low decimal digits of `n`, most significant first: the
zero-padded decimal of `n` in a field of `width` characters. -/
def zero_padded : Nat → Nat → List Char
  | 0, _ => []
  | width + 1, n => zero_padded width (n / 10) ++ [digit_char (n % 10)]

/-- The value of a decimal digit character. -/
def digit_value (c : Char) : Nat := c.toNat - 48

/-- The number that a string of decimal digits denotes. -/
def read_dec (text : List Char) : Nat :=
  text.foldl (fun acc c => acc * 10 + digit_value c) 0

/-! ## thread_1 (strobe.c:212-240) -/

/-- What the operating system answers to the emitter thread. The per-iteration
answers are indexed by the iteration number. -/
structure ThreadEnv where
  timerfd_create : Int
  timerfd_settime : Int
  gettimeofday : Nat → timeval
  fopen : Nat → Bool
  read : Nat → Option Nat

/-- The state the emitter thread acts on: the pin levels, the `int` counter
`thread_1_count`, and the trace so far. -/
structure World where
  levels : Nat
  thread_1_count : Int
  trace : List Event
  deriving DecidableEq

/-- How a run of the emitter thread over the given observations ends:
`returned` is `return NULL`, `looping` means every observation given was
non-zero and the loop is still going, `fault` is the undefined behaviour of
passing a null `FILE *` to `fprintf`. -/
inductive Status where
  | returned
  | looping
  | fault
  deriving DecidableEq

/-- The outcome of a run of the emitter thread. -/
structure ThreadResult where
  status : Status
  info : periodic_info
  world : World
  deriving DecidableEq

/-- Append an event to the trace. -/
def World.emit (w : World) (e : Event) : World := { w with trace := w.trace ++ [e] }

/-- The statement `GPIO_CLR = 1<<STROBE_PIN;`. -/
def World.clr (w : World) : World :=
  { w with levels := GPIO_CLR w.levels STROBE_BIT,
           trace := w.trace ++ [Event.gpio_clr STROBE_BIT] }

/-- The statement `GPIO_SET = 1<<STROBE_PIN;`. -/
def World.set (w : World) : World :=
  { w with levels := GPIO_SET w.levels STROBE_BIT,
           trace := w.trace ++ [Event.gpio_set STROBE_BIT] }

/-- The `read` on the timer descriptor: it fails on the invalid descriptor -1. -/
def timer_read (env : ThreadEnv) (fd : Int) (i : Nat) : Option Nat :=
  if fd = -1 then none else env.read i

/-- The `while (run_state)` loop of `thread_1`, strobe.c:221-238. The list
holds the values of `run_state` read at the top of the loop, `i` is the
iteration number. `debug` is 0, so the debug `printf` is never executed. -/
def thread_1_loop (env : ThreadEnv) :
    Nat → List Int → periodic_info → World → ThreadResult
  | _, [], info, w => { status := Status.looping, info := info, world := w }
  | i, r :: rest, info, w =>
    if r = 0 then { status := Status.returned, info := info, world := w }
    else
      let w := w.clr
      let w := w.clr
      let ts := env.gettimeofday i
      let w := w.emit (Event.gettimeofday ts)
      let w := w.emit (Event.fopen (env.fopen i))
      if env.fopen i = false then { status := Status.fault, info := info, world := w }
      else
        let w := w.emit (Event.fprintf (time_text ts))
        let w := w.emit Event.fclose
        let w := w.emit (Event.usleep 10)
        let w := w.set
        let w := w.set
        let w := { w with thread_1_count := int_wrap (w.thread_1_count + 1),
                          trace := w.trace ++ [Event.count_inc] }
        let w := w.emit (Event.read_timer info.timer_fd)
        let info := wait_period info (timer_read env info.timer_fd i)
        thread_1_loop env (i + 1) rest info w

/-- The function `thread_1`: `make_periodic(100000, &info)` with its return
value dropped, then the loop. -/
def thread_1 (env : ThreadEnv) (obs : List Int) (w : World) : ThreadResult :=
  let mp := make_periodic env.timerfd_create env.timerfd_settime 100000
  thread_1_loop env 0 obs mp.info { w with trace := w.trace ++ mp.events }

/-! ### The pulse sequence and the line level along a trace -/

/-- The events of one complete pulse of iteration `i` on timer descriptor
`fd`: line low, time of day, timestamp to the sink, settle delay, line high,
counter, wait for the tick. -/
def pulse_events (env : ThreadEnv) (fd : Int) (i : Nat) : List Event :=
  [Event.gpio_clr STROBE_BIT, Event.gpio_clr STROBE_BIT,
   Event.gettimeofday (env.gettimeofday i),
   Event.fopen true,
   Event.fprintf (time_text (env.gettimeofday i)),
   Event.fclose,
   Event.usleep 10,
   Event.gpio_set STROBE_BIT, Event.gpio_set STROBE_BIT,
   Event.count_inc,
   Event.read_timer fd]

/-- The number of values of `run_state` read as Running before the first one
read as Stopped. -/
def running_count (obs : List Int) : Nat := (obs.takeWhile (fun r => r != 0)).length

/-- The effect of an event on the pin levels. -/
def apply_event (levels : Nat) : Event → Nat
  | Event.gpio_set v => GPIO_SET levels v
  | Event.gpio_clr v => GPIO_CLR levels v
  | _ => levels

/-- The pin levels after a trace. -/
def levels_after (levels : Nat) (tr : List Event) : Nat := tr.foldl apply_event levels

/-- The events of an iteration in which `fopen` yields no handle, up to the
point where the null handle is passed on. -/
def cut_pulse_events (env : ThreadEnv) (i : Nat) : List Event :=
  [Event.gpio_clr STROBE_BIT, Event.gpio_clr STROBE_BIT,
   Event.gettimeofday (env.gettimeofday i),
   Event.fopen false]

/-- The event is a wait for the next tick. -/
def Event.is_wait : Event → Bool
  | Event.read_timer _ => true
  | _ => false

/-- The event is the settle delay. -/
def Event.is_settle : Event → Bool
  | Event.usleep _ => true
  | _ => false

/-- Along the trace, started at the given pin levels, the condition `q` holds
of the pin levels right before every event that satisfies `p`. -/
def holds_before (p : Event → Bool) (q : Nat → Bool) (levels : Nat) : List Event → Bool
  | [] => true
  | e :: rest => (!p e || q levels) && holds_before p q (apply_event levels e) rest

/-- The strobe line is at its active (low) level. -/
def line_low (levels : Nat) : Bool := !line_high levels

/-- The event is a write to a GPIO register. -/
def Event.is_gpio_write : Event → Bool
  | Event.gpio_set _ => true
  | Event.gpio_clr _ => true
  | _ => false

/-- The event is a write to the timestamp sink. -/
def Event.is_sink_write : Event → Bool
  | Event.fprintf _ => true
  | _ => false

/-! ## setup_io and main (strobe.c:242-362) -/

/-- The register writes at the end of `setup_io`, strobe.c:272-273. -/
def setup_io (levels : Nat) : Nat := GPIO_SET (GPIO_SET levels STROBE_BIT) STROBE_BIT

/-- The state of the command loop of `main`: the shared `run_state`, the pin
levels, the number of `pthread_create` calls made, and the trace. -/
structure MainState where
  run_state : Int
  levels : Nat
  threads : Nat
  trace : List Event
  deriving DecidableEq

/-- The `switch (c)` of `main`, strobe.c:334-356. The second component is the
value `main` returns, if it returns. -/
def command_switch (s : MainState) (c : Nat) : MainState × Option Int :=
  if c = 'g'.toNat ∨ c = 'G'.toNat then
    ({ s with run_state := 1, threads := s.threads + 1,
              trace := s.trace ++ [Event.pthread_create] }, none)
  else if c = 's'.toNat ∨ c = 'S'.toNat then
    ({ s with run_state := 0 }, none)
  else if c = 'q'.toNat ∨ c = 'Q'.toNat then
    ({ s with run_state := 0, levels := GPIO_SET s.levels STROBE_BIT,
              trace := s.trace ++
                [Event.gpio_set STROBE_BIT, Event.syslog_notice, Event.closelog] },
     some 0)
  else (s, none)

/-- The `while (1)` loop of `main` over the command bytes `c = buffer[0]` of
the datagrams received, strobe.c:323-357. -/
def main_loop : MainState → List Nat → MainState × Option Int
  | s, [] => (s, none)
  | s, c :: rest =>
    match command_switch s c with
    | (s1, some ret) => (s1, some ret)
    | (s1, none) => main_loop s1 rest

/-- The state in which `main` enters its command loop: `run_state = 0;
setup_io();`, strobe.c:289-290, and the `syslog` notice of strobe.c:320. -/
def main_start (levels : Nat) : MainState :=
  { run_state := 0, levels := setup_io levels, threads := 0,
    trace := [Event.gpio_set STROBE_BIT, Event.gpio_set STROBE_BIT, Event.syslog_notice] }

/-- The function `main` from the command loop on. -/
def main (levels : Nat) (cmds : List Nat) : MainState × Option Int :=
  main_loop (main_start levels) cmds

/-! ## Receiving a datagram (strobe.c:281, 326-332) -/

/-- The call `recvfrom(sockfd, buffer, MAXLINE, ...)` on a datagram: at most
`MAXLINE` bytes are copied to the front of the buffer and their number is
returned. -/
def recvfrom (buffer datagram : List Nat) : List Nat × Int :=
  let n := min datagram.length MAXLINE
  (datagram.take n ++ buffer.drop n, (n : Int))

/-- The store `buffer[i] = v` into `char buffer[MAXLINE]`; `none` when the
index is outside the array. -/
def buffer_store (buffer : List Nat) (i : Int) (v : Nat) : Option (List Nat) :=
  if 0 ≤ i ∧ i < (buffer.length : Int) then some (buffer.set i.toNat v) else none

/-- The load `buffer[i]`; `none` when the index is outside the array. -/
def buffer_load (buffer : List Nat) (i : Int) : Option Nat :=
  if 0 ≤ i ∧ i < (buffer.length : Int) then buffer[i.toNat]? else none

/-- The statements `buffer[n] = 0; c = buffer[0];`, strobe.c:330-332: the
buffer afterwards and the command byte, or `none` when an access is out of
bounds. -/
def terminate_and_read (buffer : List Nat) (n : Int) : Option (List Nat × Nat) :=
  match buffer_store buffer n 0 with
  | none => none
  | some b =>
    match buffer_load b 0 with
    | none => none
    | some c => some (b, c)

/-- One receive: `recvfrom`, then the terminator and the command byte. -/
def recv_command (buffer datagram : List Nat) : Option (List Nat × Nat) :=
  let r := recvfrom buffer datagram
  terminate_and_read r.1 r.2

/-! ### Sample inputs -/

/-- A run in which every call succeeds: descriptor 3, one expiry per read. -/
def sample_env : ThreadEnv :=
  ⟨3, 0, fun i => ⟨1569500000 + (i : Int), 42⟩, fun _ => true, fun _ => some 1⟩

/-- As `sample_env`, but `fopen` never yields a handle. -/
def sample_env_no_sink : ThreadEnv :=
  ⟨3, 0, fun i => ⟨1569500000 + (i : Int), 42⟩, fun _ => false, fun _ => some 1⟩

/-- As `sample_env`, but `fopen` yields a handle in the first iteration only. -/
def sample_env_sink_lost : ThreadEnv :=
  ⟨3, 0, fun i => ⟨1569500000 + (i : Int), 42⟩, fun i => decide (i = 0), fun _ => some 1⟩

/-- As `sample_env`, but `timerfd_create` fails. -/
def sample_env_no_timer : ThreadEnv :=
  ⟨-1, 0, fun i => ⟨1569500000 + (i : Int), 42⟩, fun _ => true, fun _ => some 1⟩

/-- The state after `setup_io`: line high, counter 0, nothing traced. -/
def sample_world : World := ⟨setup_io 0, 0, []⟩

/-! # Theorems -/

/-! ## Lemmas on the GPIO registers -/

theorem strobe_bit_eq : STROBE_BIT = 2 ^ 21 := by decide

theorem line_high_iff (levels : Nat) : line_high levels = levels.testBit 21 := by
  have h : levels &&& 2 ^ 21 = if levels.testBit 21 then 2 ^ 21 else 0 := by
    apply Nat.eq_of_testBit_eq
    intro i
    by_cases hi : i = 21
    · subst hi
      cases hb : levels.testBit 21 <;> simp [hb, Nat.testBit_two_pow_self]
    · have h2 : Nat.testBit 2097152 i = false :=
        Nat.testBit_two_pow_of_ne (n := 21) (Ne.symm hi)
      cases hb : levels.testBit 21 <;> simp [hb, h2]
  unfold line_high GET_GPIO STROBE_PIN
  rw [Nat.one_shiftLeft, h]
  cases hb : levels.testBit 21 <;> simp

theorem line_high_set (levels : Nat) : line_high (GPIO_SET levels STROBE_BIT) = true := by
  rw [line_high_iff, strobe_bit_eq]
  have h21 : Nat.testBit 2097152 21 = true := by decide
  simp [GPIO_SET, h21]

theorem line_high_clr (levels : Nat) : line_high (GPIO_CLR levels STROBE_BIT) = false := by
  rw [line_high_iff, strobe_bit_eq]
  have h21 : Nat.testBit 2097152 21 = true := by decide
  simp [GPIO_CLR, h21]

theorem line_high_setup (levels : Nat) : line_high (setup_io levels) = true :=
  line_high_set _

/-! ## The command switch -/

theorem command_switch_go (s : MainState) (c : Nat) (h : c = 'g'.toNat ∨ c = 'G'.toNat) :
    command_switch s c =
      ({ s with run_state := 1, threads := s.threads + 1,
                trace := s.trace ++ [Event.pthread_create] }, none) := by
  rcases h with h | h <;> subst h <;> simp [command_switch]

theorem command_switch_stop (s : MainState) (c : Nat) (h : c = 's'.toNat ∨ c = 'S'.toNat) :
    command_switch s c = ({ s with run_state := 0 }, none) := by
  rcases h with h | h <;> subst h <;> simp [command_switch]

theorem command_switch_quit (s : MainState) (c : Nat) (h : c = 'q'.toNat ∨ c = 'Q'.toNat) :
    command_switch s c =
      ({ s with run_state := 0, levels := GPIO_SET s.levels STROBE_BIT,
                trace := s.trace ++
                  [Event.gpio_set STROBE_BIT, Event.syslog_notice, Event.closelog] },
       some 0) := by
  rcases h with h | h <;> subst h <;> simp [command_switch]

theorem command_switch_other (s : MainState) (c : Nat)
    (hg : ¬ (c = 'g'.toNat ∨ c = 'G'.toNat)) (hs : ¬ (c = 's'.toNat ∨ c = 'S'.toNat))
    (hq : ¬ (c = 'q'.toNat ∨ c = 'Q'.toNat)) :
    command_switch s c = (s, none) := by
  unfold command_switch
  rw [if_neg hg, if_neg hs, if_neg hq]

/-- C1: a Go received while the run state is Running makes one more
`pthread_create` call, and the commands x, g, g, q leave two emitter loops
spawned where the specification asks for one. -/
theorem go_while_running_spawns_again :
    (∀ s : MainState, s.run_state = 1 →
      (command_switch s 'g'.toNat).1.run_state = 1 ∧
      (command_switch s 'g'.toNat).1.threads = s.threads + 1 ∧
      (command_switch s 'G'.toNat).1.threads = s.threads + 1) ∧
    (∀ levels : Nat,
      (main levels ['x'.toNat, 'g'.toNat, 'g'.toNat, 'q'.toNat]).1.threads = 2 ∧
      (main levels ['x'.toNat, 'g'.toNat]).1.threads = 1 ∧
      (main levels ['x'.toNat, 'g'.toNat]).1.run_state = 1 ∧
      (main levels ['x'.toNat, 'g'.toNat, 'g'.toNat]).1.threads = 2) := by
  refine ⟨?_, ?_⟩
  · intro s _
    rw [command_switch_go s _ (Or.inl rfl), command_switch_go s _ (Or.inr rfl)]
    exact ⟨rfl, rfl, rfl⟩
  · intro levels
    simp [main, main_loop, main_start, command_switch]

/-- C3: in every controller state a Quit command (q or Q) clears the run flag,
writes the strobe bit to the set register so that the line is high, and makes
`main` return 0, so that no later command byte is processed. -/
theorem quit_forces_idle (s : MainState) (c : Nat) (hq : c = 'q'.toNat ∨ c = 'Q'.toNat) :
    (command_switch s c).1.run_state = 0 ∧
    (command_switch s c).1.levels = GPIO_SET s.levels (1 <<< STROBE_PIN) ∧
    line_high (command_switch s c).1.levels = true ∧
    (command_switch s c).1.trace =
      s.trace ++ [Event.gpio_set (1 <<< STROBE_PIN), Event.syslog_notice, Event.closelog] ∧
    (command_switch s c).2 = some 0 ∧
    ∀ rest : List Nat, main_loop s (c :: rest) = command_switch s c := by
  have hc := command_switch_quit s c hq
  refine ⟨?_, ?_, ?_, ?_, ?_, ?_⟩
  · rw [hc]
  · rw [hc]; rfl
  · rw [hc]; exact line_high_set _
  · rw [hc]; rfl
  · rw [hc]
  · intro rest
    simp [main_loop, hc]

/-- C3 at a concrete state: Running with the line low, command q followed by g. -/
theorem quit_forces_idle_witness :
    ('q'.toNat = 'q'.toNat ∨ 'q'.toNat = 'Q'.toNat) ∧
    (command_switch { run_state := 1, levels := 0, threads := 1, trace := [] }
      'q'.toNat).1.run_state = 0 ∧
    line_high (command_switch { run_state := 1, levels := 0, threads := 1, trace := [] }
      'q'.toNat).1.levels = true ∧
    main_loop { run_state := 1, levels := 0, threads := 1, trace := [] }
        ['q'.toNat, 'g'.toNat] =
      command_switch { run_state := 1, levels := 0, threads := 1, trace := [] } 'q'.toNat :=
  have h := quit_forces_idle { run_state := 1, levels := 0, threads := 1, trace := [] }
    'q'.toNat (Or.inl rfl)
  ⟨Or.inl rfl, h.1, h.2.2.1, h.2.2.2.2.2 ['g'.toNat]⟩

theorem main_loop_continue (s s1 : MainState) (c : Nat) (rest : List Nat)
    (h : command_switch s c = (s1, none)) :
    main_loop s (c :: rest) = main_loop s1 rest := by
  simp [main_loop, h]

/-- C4: the reaction to the first byte of a datagram follows the command
table, in either case of the letter: g sets the run flag to Running, s sets
it to Stopped and changes nothing else, q makes `main` return, and any other
byte, the NUL of an empty datagram included, changes nothing; after all but q
the loop goes on to the next command. -/
theorem command_table (s : MainState) (b : Nat) :
    ((b = 'g'.toNat ∨ b = 'G'.toNat) →
      (command_switch s b).1.run_state = 1 ∧ (command_switch s b).2 = none ∧
      ∀ rest : List Nat, main_loop s (b :: rest) = main_loop (command_switch s b).1 rest) ∧
    ((b = 's'.toNat ∨ b = 'S'.toNat) →
      command_switch s b = ({ s with run_state := 0 }, none) ∧
      ∀ rest : List Nat, main_loop s (b :: rest) = main_loop { s with run_state := 0 } rest) ∧
    ((b = 'q'.toNat ∨ b = 'Q'.toNat) →
      (command_switch s b).2 = some 0 ∧
      ∀ rest : List Nat, main_loop s (b :: rest) = command_switch s b) ∧
    (b ∉ ['g'.toNat, 'G'.toNat, 's'.toNat, 'S'.toNat, 'q'.toNat, 'Q'.toNat] →
      command_switch s b = (s, none) ∧
      ∀ rest : List Nat, main_loop s (b :: rest) = main_loop s rest) ∧
    (∀ buffer : List Nat, buffer.length = MAXLINE →
      (recv_command buffer []).map Prod.snd = some 0 ∧ command_switch s 0 = (s, none)) := by
  refine ⟨?_, ?_, ?_, ?_, ?_⟩
  · intro h
    have hc := command_switch_go s b h
    refine ⟨by rw [hc], by rw [hc], ?_⟩
    intro rest
    rw [main_loop_continue s _ b rest hc, hc]
  · intro h
    have hc := command_switch_stop s b h
    exact ⟨hc, fun rest => main_loop_continue s _ b rest hc⟩
  · intro h
    have hc := command_switch_quit s b h
    refine ⟨by rw [hc], ?_⟩
    intro rest
    simp [main_loop, hc]
  · intro h
    have hc : command_switch s b = (s, none) := by
      apply command_switch_other <;> intro h1 <;> apply h <;> rcases h1 with h1 | h1 <;>
        simp [h1]
    exact ⟨hc, fun rest => main_loop_continue s _ b rest hc⟩
  · intro buffer hlen
    constructor
    · cases buffer with
      | nil => simp [MAXLINE] at hlen
      | cons x xs =>
        simp [recv_command, recvfrom, terminate_and_read, buffer_store, buffer_load, MAXLINE]
    · exact command_switch_other s 0 (by decide) (by decide) (by decide)

/-- C4 at concrete inputs: g, S, Q and the byte x in the initial state. -/
theorem command_table_witness :
    (command_switch (main_start 0) 'g'.toNat).1.run_state = 1 ∧
    command_switch (main_start 0) 'S'.toNat =
      ({ main_start 0 with run_state := 0 }, none) ∧
    (command_switch (main_start 0) 'Q'.toNat).2 = some 0 ∧
    command_switch (main_start 0) 'x'.toNat = (main_start 0, none) :=
  ⟨((command_table (main_start 0) 'g'.toNat).1 (Or.inl rfl)).1,
   ((command_table (main_start 0) 'S'.toNat).2.1 (Or.inr rfl)).1,
   ((command_table (main_start 0) 'Q'.toNat).2.2.1 (Or.inr rfl)).1,
   ((command_table (main_start 0) 'x'.toNat).2.2.2.1 (by decide)).1⟩

/-! ## wait_period -/

/-- C5: a successful timer read that reports `k` expiries adds `k` itself to
`wakeups_missed`, not `k - 1`: a normal tick (`k = 1`) takes the counter from 0
to 1. A failed read leaves the structure as it was. -/
theorem wait_period_adds_all_expiries :
    (wait_period { timer_fd := 3, wakeups_missed := 0 } (some 1)).wakeups_missed = 1 ∧
    (∀ (info : periodic_info) (k : Nat), info.wakeups_missed + k < 2 ^ 64 →
      (wait_period info (some k)).wakeups_missed = info.wakeups_missed + k) ∧
    (∀ info : periodic_info, wait_period info none = info) := by
  refine ⟨by decide, ?_, fun _ => rfl⟩
  intro info k h
  simp only [wait_period, u64_add]
  exact Nat.mod_eq_of_lt h

/-! ## make_periodic -/

/-- C6: for a 32-bit period `p` in microseconds and a timer that could be
created, the 32-bit computation of `make_periodic` does not wrap: the seconds
are `p / 1000000`, the nanoseconds are below 1000000000, together they are
`p * 1000` nanoseconds, and `timerfd_settime` gets that pair as both interval
and initial value; the period 100000 that `thread_1` passes gives
(0 s, 100000000 ns). -/
theorem make_periodic_interval (fd settime_ret : Int) (p : Nat)
    (hp : p < 2 ^ 32) (hfd : fd ≠ -1) :
    period_sec p = p / 1000000 ∧
    period_sec p * 1000000 ≤ p ∧
    (p - period_sec p * 1000000) * 1000 < 2 ^ 32 ∧
    period_ns p = (p - period_sec p * 1000000) * 1000 ∧
    period_ns p < 1000000000 ∧
    period_sec p * 1000000000 + period_ns p = p * 1000 ∧
    (make_periodic fd settime_ret p).events =
      [Event.timerfd_create fd,
       Event.timerfd_settime fd
         { tv_sec := (period_sec p : Int), tv_nsec := (period_ns p : Int) }
         { tv_sec := (period_sec p : Int), tv_nsec := (period_ns p : Int) }] ∧
    (make_periodic fd settime_ret p).ret = settime_ret ∧
    (period_sec 100000 = 0 ∧ period_ns 100000 = 100000000) ∧
    (∀ (env : ThreadEnv) (w : World), env.timerfd_create = fd →
      (thread_1 env [] w).world.trace = w.trace ++
        [Event.timerfd_create fd,
         Event.timerfd_settime fd { tv_sec := 0, tv_nsec := 100000000 }
           { tv_sec := 0, tv_nsec := 100000000 }]) := by
  have hp2 : p < 4294967296 := by simpa using hp
  have hsec : period_sec p = p / 1000000 := by
    simp only [period_sec, u32_div]
    norm_num
    rw [Nat.mod_eq_of_lt hp2]
  have hns : period_ns p = (p - period_sec p * 1000000) * 1000 := by
    rw [hsec]
    simp only [period_ns, u32_mul, u32_sub, hsec]
    norm_num
    omega
  have href : period_sec 100000 = 0 ∧ period_ns 100000 = 100000000 := by decide
  refine ⟨hsec, ?_, ?_, hns, ?_, ?_, ?_, ?_, href, ?_⟩
  · rw [hsec]; omega
  · rw [hsec]; norm_num; omega
  · rw [hns, hsec]; omega
  · rw [hns, hsec]; omega
  · simp [make_periodic, hfd]
  · simp [make_periodic, hfd]
  · intro env w henv
    simp [thread_1, thread_1_loop, make_periodic, henv, hfd, href.1, href.2]

/-- C6 at the period of one and a half seconds on descriptor 3. -/
theorem make_periodic_interval_witness :
    (1500000 < 2 ^ 32 ∧ (3 : Int) ≠ -1) ∧
    period_sec 1500000 = 1500000 / 1000000 ∧
    period_ns 1500000 < 1000000000 ∧
    period_sec 1500000 * 1000000000 + period_ns 1500000 = 1500000 * 1000 ∧
    (make_periodic 3 0 1500000).events =
      [Event.timerfd_create 3,
       Event.timerfd_settime 3
         { tv_sec := (period_sec 1500000 : Int), tv_nsec := (period_ns 1500000 : Int) }
         { tv_sec := (period_sec 1500000 : Int), tv_nsec := (period_ns 1500000 : Int) }] :=
  have h := make_periodic_interval 3 0 1500000 (by norm_num) (by decide)
  ⟨⟨by norm_num, by decide⟩, h.1, h.2.2.2.2.1, h.2.2.2.2.2.1, h.2.2.2.2.2.2.1⟩

/-! ## The receive buffer -/

/-- C10: with a receive result `n` below `MAXLINE` the terminator store and
the command load are inside the buffer, but at `n = MAXLINE`, which `recvfrom`
returns for a datagram of `MAXLINE` bytes or more, the store `buffer[n]` is
one past the end of the `MAXLINE`-byte array. -/
theorem terminator_store_out_of_bounds :
    (∀ (buffer : List Nat) (n : Int), buffer.length = MAXLINE → 0 ≤ n → n < MAXLINE →
      (terminate_and_read buffer n).isSome = true) ∧
    (∀ buffer : List Nat, buffer.length = MAXLINE →
      buffer_store buffer (MAXLINE : Int) 0 = none ∧
      terminate_and_read buffer (MAXLINE : Int) = none) ∧
    (∀ buffer datagram : List Nat, buffer.length = MAXLINE → MAXLINE ≤ datagram.length →
      (recvfrom buffer datagram).2 = (MAXLINE : Int) ∧
      (recvfrom buffer datagram).1.length = MAXLINE ∧
      recv_command buffer datagram = none) := by
  have hstore : ∀ buffer : List Nat, buffer.length = MAXLINE →
      buffer_store buffer (MAXLINE : Int) 0 = none := by
    intro buffer hlen
    simp [buffer_store, hlen]
  refine ⟨?_, ?_, ?_⟩
  · intro buffer n hlen h0 hn
    have h1 : buffer_store buffer n 0 = some (buffer.set n.toNat 0) := by
      simp [buffer_store, hlen, h0, hn]
    simp [terminate_and_read, h1, buffer_load, hlen, MAXLINE]
  · intro buffer hlen
    exact ⟨hstore buffer hlen, by simp [terminate_and_read, hstore buffer hlen]⟩
  · intro buffer datagram hlen hd
    have hmin : min datagram.length MAXLINE = MAXLINE := Nat.min_eq_right hd
    have hl : (recvfrom buffer datagram).1.length = MAXLINE := by
      simp [recvfrom, hmin, hlen, List.length_take, hd]
    have hn : (recvfrom buffer datagram).2 = (MAXLINE : Int) := by
      simp [recvfrom, hmin]
    refine ⟨hn, hl, ?_⟩
    simp only [recv_command, hn]
    simp [terminate_and_read, hstore _ hl]

/-! ## The emitter thread -/

/-- C7: when `fopen` yields no handle in an iteration, the null pointer goes
on to `fprintf`: the run ends in the fault with the line still low, no write
to the set register, the counter not incremented and no tick awaited. -/
theorem sink_open_failure_faults (env : ThreadEnv) (obs : List Int) (w : World) (r : Int)
    (hr : r ≠ 0) (hopen : env.fopen 0 = false) :
    (thread_1 env (r :: obs) w).status = Status.fault ∧
    (thread_1 env (r :: obs) w).world.trace =
      w.trace ++ (make_periodic env.timerfd_create env.timerfd_settime 100000).events ++
        [Event.gpio_clr STROBE_BIT, Event.gpio_clr STROBE_BIT,
         Event.gettimeofday (env.gettimeofday 0), Event.fopen false] ∧
    line_high (thread_1 env (r :: obs) w).world.levels = false ∧
    (thread_1 env (r :: obs) w).world.thread_1_count = w.thread_1_count := by
  refine ⟨?_, ?_, ?_, ?_⟩
  · simp [thread_1, thread_1_loop, hr, hopen]
  · simp [thread_1, thread_1_loop, hr, hopen, World.clr, World.emit]
  · simp [thread_1, thread_1_loop, hr, hopen, World.clr, World.emit, line_high_clr]
  · simp [thread_1, thread_1_loop, hr, hopen, World.clr, World.emit]

/-- C7 at a concrete run: the sink cannot be opened in the first iteration. -/
theorem sink_open_failure_faults_witness :
    (thread_1 sample_env_no_sink [1, 1, 0] sample_world).status = Status.fault ∧
    line_high (thread_1 sample_env_no_sink [1, 1, 0] sample_world).world.levels = false :=
  have h := sink_open_failure_faults sample_env_no_sink [1, 0] sample_world 1 (by decide) rfl
  ⟨h.1, h.2.2.1⟩

/-- C8: when `timerfd_create` fails, `make_periodic` returns -1 and makes no
`timerfd_settime` call, but `thread_1` drops that return value: with the run
flag read as Running once, the loop still emits a complete pulse (four
register writes) and then returns. -/
theorem timer_failure_still_pulses (env : ThreadEnv) (w : World) (r : Int)
    (hfd : env.timerfd_create = -1) (hr : r ≠ 0) (hopen : env.fopen 0 = true) :
    (make_periodic env.timerfd_create env.timerfd_settime 100000).ret = -1 ∧
    (make_periodic env.timerfd_create env.timerfd_settime 100000).events =
      [Event.timerfd_create (-1)] ∧
    (thread_1 env [r, 0] w).world.trace =
      w.trace ++ Event.timerfd_create (-1) :: pulse_events env (-1) 0 ∧
    ((thread_1 env [r, 0] w).world.trace.filter Event.is_gpio_write).length =
      (w.trace.filter Event.is_gpio_write).length + 4 ∧
    (thread_1 env [r, 0] w).status = Status.returned := by
  have htr : (thread_1 env [r, 0] w).world.trace =
      w.trace ++ Event.timerfd_create (-1) :: pulse_events env (-1) 0 := by
    simp [thread_1, thread_1_loop, make_periodic, hfd, hr, hopen, World.clr, World.set,
      World.emit, pulse_events]
  refine ⟨?_, ?_, htr, ?_, ?_⟩
  · simp [make_periodic, hfd]
  · simp [make_periodic, hfd]
  · rw [htr]
    simp [pulse_events, List.filter_cons, Event.is_gpio_write]
  · simp [thread_1, thread_1_loop, hr, hopen]

/-- C8 at a concrete run: the timer cannot be created, Running is read once. -/
theorem timer_failure_still_pulses_witness :
    (thread_1 sample_env_no_timer [1, 0] sample_world).world.trace =
      sample_world.trace ++
        Event.timerfd_create (-1) :: pulse_events sample_env_no_timer (-1) 0 ∧
    (thread_1 sample_env_no_timer [1, 0] sample_world).status = Status.returned :=
  have h := timer_failure_still_pulses sample_env_no_timer sample_world 1 rfl (by decide) rfl
  ⟨h.2.2.1, h.2.2.2.2⟩

/-! ## The timestamp text -/

theorem digit_value_digit_char (d : Nat) (h : d < 10) : digit_value (digit_char d) = d := by
  interval_cases d <;> decide

theorem digit_char_isDigit (d : Nat) (h : d < 10) : (digit_char d).isDigit = true := by
  interval_cases d <;> decide

theorem dec_digits_fuel_eq (f1 : Nat) : ∀ (f2 n : Nat), n < f1 → n < f2 →
    dec_digits_fuel f1 n = dec_digits_fuel f2 n := by
  induction f1 with
  | zero => intro f2 n h1 _; omega
  | succ f1 ih =>
    intro f2 n h1 h2
    cases f2 with
    | zero => omega
    | succ f2 =>
      simp only [dec_digits_fuel]
      split
      · rfl
      · rw [ih f2 (n / 10) (by omega) (by omega)]

theorem dec_digits_lt (n : Nat) (h : n < 10) : dec_digits n = [digit_char n] := by
  simp [dec_digits, dec_digits_fuel, h]

theorem dec_digits_ge (n : Nat) (h : 10 ≤ n) :
    dec_digits n = dec_digits (n / 10) ++ [digit_char (n % 10)] := by
  have hn : ¬ n < 10 := by omega
  have h1 : dec_digits_fuel (n + 1) n =
      dec_digits_fuel n (n / 10) ++ [digit_char (n % 10)] := by
    simp only [dec_digits_fuel, hn, if_false]
  unfold dec_digits
  rw [h1, dec_digits_fuel_eq n (n / 10 + 1) (n / 10) (by omega) (by omega)]

theorem zero_padded_zero (w : Nat) : zero_padded w 0 = List.replicate w '0' := by
  induction w with
  | zero => rfl
  | succ w ih =>
    simp only [zero_padded, Nat.zero_div, Nat.zero_mod, ih, List.replicate_succ']
    rfl

theorem zero_padded_length (w : Nat) : ∀ n : Nat, (zero_padded w n).length = w := by
  induction w with
  | zero => intro n; rfl
  | succ w ih => intro n; simp [zero_padded, ih]

theorem zero_padded_isDigit (w : Nat) : ∀ n : Nat,
    (zero_padded w n).all Char.isDigit = true := by
  induction w with
  | zero => intro n; rfl
  | succ w ih =>
    intro n
    rw [zero_padded, List.all_append, ih]
    simp [digit_char_isDigit (n % 10) (Nat.mod_lt _ (by norm_num))]

/-- Padding the digits of `n` with zeros to `w + 1` characters gives the
`w + 1` low digits of `n`, when `n` has no more than that many digits. -/
theorem pad_dec_digits (w : Nat) : ∀ n : Nat, n < 10 ^ (w + 1) →
    List.replicate (w + 1 - (dec_digits n).length) '0' ++ dec_digits n =
      zero_padded (w + 1) n := by
  induction w with
  | zero =>
    intro n h
    have h10 : n < 10 := by simpa using h
    simp [dec_digits_lt n h10, zero_padded, Nat.mod_eq_of_lt h10]
  | succ w ih =>
    intro n h
    by_cases h10 : n < 10
    · have hdiv : n / 10 = 0 := by omega
      rw [dec_digits_lt n h10, zero_padded, hdiv, zero_padded_zero, Nat.mod_eq_of_lt h10]
      simp
    · have hge : 10 ≤ n := by omega
      have hlt : n / 10 < 10 ^ (w + 1) := by
        rw [Nat.div_lt_iff_lt_mul (by norm_num)]
        calc n < 10 ^ (w + 1 + 1) := h
          _ = 10 ^ (w + 1) * 10 := by ring
      rw [dec_digits_ge n hge, zero_padded, ← ih (n / 10) hlt]
      simp only [List.length_append, List.length_singleton, List.append_assoc]
      congr 2
      omega

theorem read_dec_append (l : List Char) (c : Char) :
    read_dec (l ++ [c]) = read_dec l * 10 + digit_value c := by
  simp [read_dec, List.foldl_append]

theorem read_dec_zero_padded (w : Nat) : ∀ n : Nat,
    read_dec (zero_padded w n) = n % 10 ^ w := by
  induction w with
  | zero => intro n; simp [zero_padded, read_dec, Nat.mod_one]
  | succ w ih =>
    intro n
    rw [zero_padded, read_dec_append, ih,
      digit_value_digit_char _ (Nat.mod_lt _ (by norm_num))]
    have h := Nat.mod_mul (x := n) (a := 10) (b := 10 ^ w)
    rw [pow_succ, Nat.mul_comm (10 ^ w) 10, h]
    ring

theorem fmt_ld_zero_nonneg (w : Nat) (v : Int) (h0 : 0 ≤ v) (h1 : v < 10 ^ (w + 1)) :
    fmt_ld_zero (w + 1) v = zero_padded (w + 1) v.toNat := by
  have hneg : ¬ v < 0 := by omega
  have habs : v.natAbs = v.toNat := by omega
  have hlt : v.toNat < 10 ^ (w + 1) := by
    have : ((v.toNat : Nat) : Int) < ((10 ^ (w + 1) : Nat) : Int) := by
      rw [Int.toNat_of_nonneg h0]; exact_mod_cast h1
    exact_mod_cast this
  simp only [fmt_ld_zero, hneg, if_false, habs]
  exact pad_dec_digits w v.toNat hlt

/-- C9: for a timestamp with seconds in [0, 10^10) and microseconds in
[0, 10^6), the text written to the sink is the ten zero-padded decimal digits
of the seconds, a point, the six zero-padded decimal digits of the
microseconds (17 characters) and a newline; reading the two digit groups back
gives the same seconds and microseconds. -/
theorem time_text_round_trip (ts : timeval)
    (hs0 : 0 ≤ ts.tv_sec) (hs1 : ts.tv_sec < 10 ^ 10)
    (hu0 : 0 ≤ ts.tv_usec) (hu1 : ts.tv_usec < 10 ^ 6) :
    time_text ts =
      zero_padded 10 ts.tv_sec.toNat ++
        '.' :: (zero_padded 6 ts.tv_usec.toNat ++ [Char.ofNat 10]) ∧
    (zero_padded 10 ts.tv_sec.toNat ++ '.' :: zero_padded 6 ts.tv_usec.toNat).length = 17 ∧
    (zero_padded 10 ts.tv_sec.toNat).all Char.isDigit = true ∧
    (zero_padded 6 ts.tv_usec.toNat).all Char.isDigit = true ∧
    (time_text ts).take 10 = zero_padded 10 ts.tv_sec.toNat ∧
    ((time_text ts).drop 11).take 6 = zero_padded 6 ts.tv_usec.toNat ∧
    (read_dec ((time_text ts).take 10) : Int) = ts.tv_sec ∧
    (read_dec (((time_text ts).drop 11).take 6) : Int) = ts.tv_usec := by
  have htext : time_text ts =
      zero_padded 10 ts.tv_sec.toNat ++
        '.' :: (zero_padded 6 ts.tv_usec.toNat ++ [Char.ofNat 10]) := by
    simp only [time_text]
    rw [fmt_ld_zero_nonneg 9 ts.tv_sec hs0 hs1, fmt_ld_zero_nonneg 5 ts.tv_usec hu0 hu1]
  have hl10 := zero_padded_length 10 ts.tv_sec.toNat
  have hl6 := zero_padded_length 6 ts.tv_usec.toNat
  have htake : (time_text ts).take 10 = zero_padded 10 ts.tv_sec.toNat := by
    rw [htext, List.take_append_of_le_length (by omega), List.take_of_length_le (by omega)]
  have hdrop : ((time_text ts).drop 11).take 6 = zero_padded 6 ts.tv_usec.toNat := by
    have h11 : (zero_padded 10 ts.tv_sec.toNat ++ ['.']).length = 11 := by simp [hl10]
    have hsplit : time_text ts = (zero_padded 10 ts.tv_sec.toNat ++ ['.']) ++
        (zero_padded 6 ts.tv_usec.toNat ++ [Char.ofNat 10]) := by
      rw [htext]; simp
    rw [hsplit, ← h11, List.drop_left, List.take_append_of_le_length (by omega),
      List.take_of_length_le (by omega)]
  have hsec : ts.tv_sec.toNat < 10 ^ 10 := by omega
  have husec : ts.tv_usec.toNat < 10 ^ 6 := by omega
  refine ⟨htext, ?_, zero_padded_isDigit _ _, zero_padded_isDigit _ _, htake, hdrop, ?_, ?_⟩
  · simp [hl10, hl6]
  · rw [htake, read_dec_zero_padded, Nat.mod_eq_of_lt hsec]
    omega
  · rw [hdrop, read_dec_zero_padded, Nat.mod_eq_of_lt husec]
    omega

/-- C9 at 1569500000 seconds and 42 microseconds. -/
theorem time_text_round_trip_witness :
    time_text { tv_sec := 1569500000, tv_usec := 42 } =
      ['1', '5', '6', '9', '5', '0', '0', '0', '0', '0', '.',
       '0', '0', '0', '0', '4', '2', Char.ofNat 10] ∧
    (read_dec ((time_text { tv_sec := 1569500000, tv_usec := 42 }).take 10) : Int)
      = 1569500000 ∧
    (read_dec (((time_text { tv_sec := 1569500000, tv_usec := 42 }).drop 11).take 6) : Int)
      = 42 :=
  have h := time_text_round_trip { tv_sec := 1569500000, tv_usec := 42 }
    (by decide) (by decide) (by decide) (by decide)
  ⟨by decide, h.2.2.2.2.2.2.1, h.2.2.2.2.2.2.2⟩

/-! ## The emitter loop -/

theorem running_count_nil : running_count [] = 0 := rfl

theorem running_count_zero (rest : List Int) : running_count (0 :: rest) = 0 := by
  simp [running_count]

theorem running_count_ne (r : Int) (rest : List Int) (hr : r ≠ 0) :
    running_count (r :: rest) = running_count rest + 1 := by
  simp [running_count, List.takeWhile_cons, hr]

theorem running_count_le (obs : List Int) : running_count obs ≤ obs.length := by
  unfold running_count
  exact (List.takeWhile_sublist _).length_le

theorem int_wrap_of_range (x : Int) (h0 : -(2 ^ 31) ≤ x) (h1 : x < 2 ^ 31) :
    int_wrap x = x := by
  unfold int_wrap
  omega

theorem int_wrap_add (a b : Int) : int_wrap (int_wrap a + b) = int_wrap (a + b) := by
  unfold int_wrap
  omega

theorem wait_period_fd (info : periodic_info) (rd : Option Nat) :
    (wait_period info rd).timer_fd = info.timer_fd := by
  cases rd <;> rfl

theorem levels_after_append (levels : Nat) (a b : List Event) :
    levels_after levels (a ++ b) = levels_after (levels_after levels a) b := by
  simp [levels_after, List.foldl_append]

theorem levels_after_pulse (env : ThreadEnv) (fd : Int) (i levels : Nat) :
    levels_after levels (pulse_events env fd i) =
      GPIO_SET (GPIO_SET (GPIO_CLR (GPIO_CLR levels STROBE_BIT) STROBE_BIT) STROBE_BIT)
        STROBE_BIT := rfl

theorem levels_after_cut_pulse (env : ThreadEnv) (i levels : Nat) :
    levels_after levels (cut_pulse_events env i) =
      GPIO_CLR (GPIO_CLR levels STROBE_BIT) STROBE_BIT := rfl

theorem line_high_after_pulse (env : ThreadEnv) (fd : Int) (i levels : Nat) :
    line_high (levels_after levels (pulse_events env fd i)) = true := by
  rw [levels_after_pulse]
  exact line_high_set _

theorem holds_before_append (p : Event → Bool) (q : Nat → Bool) (a : List Event) :
    ∀ (levels : Nat) (b : List Event),
    holds_before p q levels (a ++ b) =
      (holds_before p q levels a && holds_before p q (levels_after levels a) b) := by
  induction a with
  | nil => intro levels b; simp [holds_before, levels_after]
  | cons e a ih =>
    intro levels b
    simp [holds_before, levels_after, List.foldl_cons, ih, Bool.and_assoc]

/-- When the monitor accepts a trace, `q` holds of the pin levels before each
of its events that satisfy `p`. -/
theorem holds_before_sound (p : Event → Bool) (q : Nat → Bool) (pre : List Event) :
    ∀ (levels : Nat) (tr post : List Event) (e : Event),
    holds_before p q levels tr = true → tr = pre ++ e :: post → p e = true →
    q (levels_after levels pre) = true := by
  induction pre with
  | nil =>
    intro levels tr post e h heq hp
    subst heq
    simp [holds_before, hp] at h
    simpa [levels_after] using h.1
  | cons x pre ih =>
    intro levels tr post e h heq hp
    subst heq
    have h2 : holds_before p q (apply_event levels x) (pre ++ e :: post) = true := by
      simp [holds_before] at h
      exact h.2
    have := ih (apply_event levels x) _ post e h2 rfl hp
    simpa [levels_after] using this

theorem holds_before_flatMap (p : Event → Bool) (q : Nat → Bool) (f : Nat → List Event)
    (hf : ∀ (levels i : Nat), holds_before p q levels (f i) = true) (l : List Nat) :
    ∀ levels : Nat, holds_before p q levels (l.flatMap f) = true := by
  induction l with
  | nil => intro levels; rfl
  | cons i l ih =>
    intro levels
    rw [List.flatMap_cons, holds_before_append, hf, ih]
    rfl

theorem idle_at_wait_pulse (env : ThreadEnv) (fd : Int) (levels i : Nat) :
    holds_before Event.is_wait line_high levels (pulse_events env fd i) = true := by
  simp [pulse_events, holds_before, apply_event, Event.is_wait, line_high_set]

theorem low_at_settle_pulse (env : ThreadEnv) (fd : Int) (levels i : Nat) :
    holds_before Event.is_settle line_low levels (pulse_events env fd i) = true := by
  simp [pulse_events, holds_before, apply_event, Event.is_settle, line_low, line_high_clr]

theorem line_high_after_pulses (env : ThreadEnv) (fd : Int) (l : List Nat) :
    ∀ levels : Nat, line_high levels = true →
      line_high (levels_after levels (l.flatMap (pulse_events env fd))) = true := by
  induction l with
  | nil => intro levels h; simpa [levels_after] using h
  | cons i l ih =>
    intro levels _
    rw [List.flatMap_cons, levels_after_append]
    exact ih _ (line_high_after_pulse env fd i levels)

theorem gpio_writes_pulses (env : ThreadEnv) (fd : Int) (l : List Nat) :
    ((l.flatMap (pulse_events env fd)).filter Event.is_gpio_write).length = 4 * l.length := by
  induction l with
  | nil => rfl
  | cons i l ih =>
    rw [List.flatMap_cons, List.filter_append, List.length_append, ih]
    simp [pulse_events, List.filter_cons, Event.is_gpio_write]
    omega

theorem sink_writes_pulses (env : ThreadEnv) (fd : Int) (l : List Nat) :
    ((l.flatMap (pulse_events env fd)).filter Event.is_sink_write).length = l.length := by
  induction l with
  | nil => rfl
  | cons i l ih =>
    rw [List.flatMap_cons, List.filter_append, List.length_append, ih]
    simp [pulse_events, List.filter_cons, Event.is_sink_write]
    omega

theorem thread_1_loop_step (env : ThreadEnv) (i : Nat) (r : Int) (rest : List Int)
    (info : periodic_info) (w : World) (hr : r ≠ 0) (hopen : env.fopen i = true) :
    thread_1_loop env i (r :: rest) info w =
      thread_1_loop env (i + 1) rest (wait_period info (timer_read env info.timer_fd i))
        { levels := levels_after w.levels (pulse_events env info.timer_fd i),
          thread_1_count := int_wrap (w.thread_1_count + 1),
          trace := w.trace ++ pulse_events env info.timer_fd i } := by
  rw [levels_after_pulse]
  simp [thread_1_loop, hr, hopen, World.clr, World.set, World.emit, pulse_events]

theorem thread_1_loop_cut (env : ThreadEnv) (i : Nat) (r : Int) (rest : List Int)
    (info : periodic_info) (w : World) (hr : r ≠ 0) (hfail : env.fopen i = false) :
    thread_1_loop env i (r :: rest) info w =
      { status := Status.fault, info := info,
        world := { levels := levels_after w.levels (cut_pulse_events env i),
                   thread_1_count := w.thread_1_count,
                   trace := w.trace ++ cut_pulse_events env i } } := by
  rw [levels_after_cut_pulse]
  simp [thread_1_loop, hr, hfail, World.clr, World.emit, cut_pulse_events]

/-- The counter after `k` increments. -/
theorem count_after (c : Int) (k : Nat) :
    (if k = 0 then int_wrap (c + 1) else int_wrap (int_wrap (c + 1) + (k : Int))) =
      int_wrap (c + ((k + 1 : Nat) : Int)) := by
  split
  · next h => subst h; simp
  · rw [int_wrap_add]; push_cast; ring_nf

/-- The loop of `thread_1` from iteration `i` on, when the sink opens: one
pulse per value of `run_state` read as Running before the first one read as
Stopped. -/
theorem thread_1_loop_spec (env : ThreadEnv) (obs : List Int) :
    ∀ (i : Nat) (info : periodic_info) (w : World),
    (∀ j, j < running_count obs → env.fopen (i + j) = true) →
    (thread_1_loop env i obs info w).world.trace =
      w.trace ++ (List.range' i (running_count obs)).flatMap
        (pulse_events env info.timer_fd) ∧
    (thread_1_loop env i obs info w).status =
      (if running_count obs < obs.length then Status.returned else Status.looping) ∧
    (thread_1_loop env i obs info w).world.thread_1_count =
      (if running_count obs = 0 then w.thread_1_count
       else int_wrap (w.thread_1_count + (running_count obs : Int))) ∧
    (thread_1_loop env i obs info w).world.levels =
      levels_after w.levels ((List.range' i (running_count obs)).flatMap
        (pulse_events env info.timer_fd)) := by
  induction obs with
  | nil =>
    intro i info w _
    simp [thread_1_loop, running_count_nil, levels_after]
  | cons r rest ih =>
    intro i info w hopen
    by_cases hr : r = 0
    · subst hr
      simp [thread_1_loop, running_count_zero, levels_after]
    · have hk := running_count_ne r rest hr
      have h0 : env.fopen i = true := by
        have := hopen 0 (by omega)
        simpa using this
      have hrest : ∀ j, j < running_count rest → env.fopen (i + 1 + j) = true := by
        intro j hj
        have := hopen (j + 1) (by omega)
        rw [← this]; congr 1; omega
      obtain ⟨h1, h2, h3, h4⟩ := ih (i + 1)
        (wait_period info (timer_read env info.timer_fd i))
        { levels := levels_after w.levels (pulse_events env info.timer_fd i),
          thread_1_count := int_wrap (w.thread_1_count + 1),
          trace := w.trace ++ pulse_events env info.timer_fd i } hrest
      rw [thread_1_loop_step env i r rest info w hr h0, hk, List.range'_succ,
        List.flatMap_cons]
      rw [wait_period_fd] at h1 h4
      refine ⟨?_, ?_, ?_, ?_⟩
      · rw [h1]; simp
      · rw [h2]; simp
      · have hne : running_count rest + 1 ≠ 0 := by omega
        rw [h3, if_neg hne]
        exact count_after _ _
      · rw [h4, levels_after_append]

/-- The loop of `thread_1` from iteration `i` on, when the sink first fails
to open in iteration `i + j` and `run_state` is still read as Running there:
`j` complete pulses, then the cut one, and the fault. -/
theorem thread_1_loop_fault (env : ThreadEnv) (obs : List Int) :
    ∀ (j i : Nat) (info : periodic_info) (w : World),
    j < running_count obs →
    (∀ m, m < j → env.fopen (i + m) = true) → env.fopen (i + j) = false →
    (thread_1_loop env i obs info w).status = Status.fault ∧
    (thread_1_loop env i obs info w).world.trace =
      w.trace ++ ((List.range' i j).flatMap (pulse_events env info.timer_fd) ++
        cut_pulse_events env (i + j)) ∧
    (thread_1_loop env i obs info w).world.levels =
      levels_after w.levels ((List.range' i j).flatMap (pulse_events env info.timer_fd) ++
        cut_pulse_events env (i + j)) ∧
    (thread_1_loop env i obs info w).world.thread_1_count =
      (if j = 0 then w.thread_1_count else int_wrap (w.thread_1_count + (j : Int))) := by
  induction obs with
  | nil =>
    intro j i info w hj
    simp [running_count_nil] at hj
  | cons r rest ih =>
    intro j i info w hj hopen hfail
    by_cases hr : r = 0
    · subst hr
      simp [running_count_zero] at hj
    · have hk := running_count_ne r rest hr
      cases j with
      | zero =>
        rw [thread_1_loop_cut env i r rest info w hr (by simpa using hfail)]
        simp
      | succ j =>
        have h0 : env.fopen i = true := by
          have := hopen 0 (by omega)
          simpa using this
        have hrest : ∀ m, m < j → env.fopen (i + 1 + m) = true := by
          intro m hm
          have := hopen (m + 1) (by omega)
          rw [← this]; congr 1; omega
        have hfail2 : env.fopen (i + 1 + j) = false := by
          rw [← hfail]; congr 1; omega
        obtain ⟨h1, h2, h3, h4⟩ := ih j (i + 1)
          (wait_period info (timer_read env info.timer_fd i))
          { levels := levels_after w.levels (pulse_events env info.timer_fd i),
            thread_1_count := int_wrap (w.thread_1_count + 1),
            trace := w.trace ++ pulse_events env info.timer_fd i }
          (by omega) hrest hfail2
        have hidx : i + 1 + j = i + (j + 1) := by omega
        rw [thread_1_loop_step env i r rest info w hr h0, List.range'_succ,
          List.flatMap_cons]
        rw [wait_period_fd, hidx] at h2 h3
        refine ⟨h1, ?_, ?_, ?_⟩
        · rw [h2]; simp
        · rw [h3]
          simp only [levels_after_append]
        · have hne : j + 1 ≠ 0 := by omega
          rw [h4, if_neg hne]
          exact count_after _ _

theorem make_periodic_fd (fd settime_ret : Int) (p : Nat) :
    (make_periodic fd settime_ret p).info.timer_fd = fd := by
  unfold make_periodic
  split <;> rfl

theorem make_periodic_levels (fd settime_ret : Int) (p levels : Nat) :
    levels_after levels (make_periodic fd settime_ret p).events = levels := by
  unfold make_periodic
  split <;> rfl

theorem make_periodic_holds (q : Nat → Bool) (fd settime_ret : Int) (p levels : Nat) :
    holds_before Event.is_wait q levels (make_periodic fd settime_ret p).events = true ∧
    holds_before Event.is_settle q levels (make_periodic fd settime_ret p).events = true := by
  unfold make_periodic
  split <;> exact ⟨rfl, rfl⟩

theorem make_periodic_no_writes (fd settime_ret : Int) (p : Nat) :
    (make_periodic fd settime_ret p).events.filter Event.is_gpio_write = [] ∧
    (make_periodic fd settime_ret p).events.filter Event.is_sink_write = [] := by
  unfold make_periodic
  split <;> exact ⟨rfl, rfl⟩

/-- When the sink opens in every iteration that runs, the trace of the emitter
thread is the timer set-up followed by exactly one complete pulse (line low,
time of day, timestamp to the sink, settle delay, line high, counter
increment, wait for the tick) for each value of `run_state` read as Running
before the first one read as Stopped, and nothing after it: the thread returns
at that first Stopped, the line is low during every settle delay, high at
every wait for a tick and, started high, high at the end. -/
theorem emitter_pulse_sequence_of_open_sink (env : ThreadEnv) (obs : List Int) (w : World)
    (hopen : ∀ i, i < running_count obs → env.fopen i = true)
    (hidle : line_high w.levels = true) :
    (thread_1 env obs w).world.trace =
      w.trace ++ (make_periodic env.timerfd_create env.timerfd_settime 100000).events ++
        (List.range (running_count obs)).flatMap (pulse_events env env.timerfd_create) ∧
    (running_count obs < obs.length → (thread_1 env obs w).status = Status.returned) ∧
    (running_count obs = obs.length → (thread_1 env obs w).status = Status.looping) ∧
    (thread_1 env obs w).world.thread_1_count =
      (if running_count obs = 0 then w.thread_1_count
       else int_wrap (w.thread_1_count + (running_count obs : Int))) ∧
    (thread_1 env obs w).world.levels =
      levels_after w.levels
        ((make_periodic env.timerfd_create env.timerfd_settime 100000).events ++
          (List.range (running_count obs)).flatMap (pulse_events env env.timerfd_create)) ∧
    (∀ (pre post : List Event) (fd : Int),
      (make_periodic env.timerfd_create env.timerfd_settime 100000).events ++
          (List.range (running_count obs)).flatMap (pulse_events env env.timerfd_create) =
        pre ++ Event.read_timer fd :: post →
      line_high (levels_after w.levels pre) = true) ∧
    (∀ (pre post : List Event) (us : Nat),
      (make_periodic env.timerfd_create env.timerfd_settime 100000).events ++
          (List.range (running_count obs)).flatMap (pulse_events env env.timerfd_create) =
        pre ++ Event.usleep us :: post →
      line_high (levels_after w.levels pre) = false) ∧
    line_high (thread_1 env obs w).world.levels = true ∧
    ((thread_1 env obs w).world.trace.filter Event.is_gpio_write).length =
      (w.trace.filter Event.is_gpio_write).length + 4 * running_count obs ∧
    ((thread_1 env obs w).world.trace.filter Event.is_sink_write).length =
      (w.trace.filter Event.is_sink_write).length + running_count obs := by
  have hopen0 : ∀ j, j < running_count obs → env.fopen (0 + j) = true := by
    intro j hj
    rw [Nat.zero_add]
    exact hopen j hj
  obtain ⟨h1, h2, h3, h4⟩ := thread_1_loop_spec env obs 0
    (make_periodic env.timerfd_create env.timerfd_settime 100000).info
    { w with trace := w.trace ++
        (make_periodic env.timerfd_create env.timerfd_settime 100000).events } hopen0
  rw [make_periodic_fd, ← List.range_eq_range'] at h1 h4
  have htrace : (thread_1 env obs w).world.trace =
      w.trace ++ (make_periodic env.timerfd_create env.timerfd_settime 100000).events ++
        (List.range (running_count obs)).flatMap (pulse_events env env.timerfd_create) := h1
  have hlev : (thread_1 env obs w).world.levels =
      levels_after w.levels
        ((List.range (running_count obs)).flatMap (pulse_events env env.timerfd_create)) := h4
  have hle := running_count_le obs
  refine ⟨htrace, ?_, ?_, h3, ?_, ?_, ?_, ?_, ?_, ?_⟩
  · intro hlt
    show (thread_1_loop env 0 obs _ _).status = Status.returned
    rw [h2, if_pos hlt]
  · intro heq
    show (thread_1_loop env 0 obs _ _).status = Status.looping
    rw [h2, if_neg (by omega)]
  · rw [hlev, levels_after_append, make_periodic_levels]
  · intro pre post fd heq
    apply holds_before_sound Event.is_wait line_high pre w.levels _ post _ _ heq rfl
    rw [holds_before_append, (make_periodic_holds _ _ _ _ _).1, make_periodic_levels,
      holds_before_flatMap _ _ _ (idle_at_wait_pulse env _)]
    rfl
  · intro pre post us heq
    have hlow : line_low (levels_after w.levels pre) = true := by
      apply holds_before_sound Event.is_settle line_low pre w.levels _ post _ _ heq rfl
      rw [holds_before_append, (make_periodic_holds _ _ _ _ _).2, make_periodic_levels,
        holds_before_flatMap _ _ _ (low_at_settle_pulse env _)]
      rfl
    simpa [line_low] using hlow
  · rw [hlev]
    exact line_high_after_pulses env _ _ w.levels hidle
  · rw [htrace, List.filter_append, List.filter_append, List.length_append,
      List.length_append, (make_periodic_no_writes _ _ _).1, gpio_writes_pulses]
    simp
  · rw [htrace, List.filter_append, List.filter_append, List.length_append,
      List.length_append, (make_periodic_no_writes _ _ _).2, sink_writes_pulses]
    simp

/-- The complete run on `sample_env`: Running is read twice, then Stopped,
then Running again (which the thread no longer reads). -/
theorem emitter_pulse_sequence_sample :
    running_count [1, 1, 0, 1] = 2 ∧
    (thread_1 sample_env [1, 1, 0, 1] sample_world).world.trace =
      sample_world.trace ++
        (make_periodic sample_env.timerfd_create sample_env.timerfd_settime 100000).events ++
        (List.range (running_count [1, 1, 0, 1])).flatMap
          (pulse_events sample_env sample_env.timerfd_create) ∧
    (thread_1 sample_env [1, 1, 0, 1] sample_world).status = Status.returned ∧
    (thread_1 sample_env [1, 1, 0, 1] sample_world).world.thread_1_count = 2 ∧
    line_high (thread_1 sample_env [1, 1, 0, 1] sample_world).world.levels = true :=
  have h := emitter_pulse_sequence_of_open_sink sample_env [1, 1, 0, 1] sample_world
    (fun _ _ => rfl) (by decide)
  ⟨by decide, h.1, h.2.1 (by decide), by decide, h.2.2.2.2.2.2.2.1⟩

/-- C2: when `fopen` yields no handle in iteration `j` while `run_state` is
still read as Running there, the emitter thread does not produce one complete
pulse per Running value read: after `j` complete pulses the null handle goes
on to `fprintf` in the middle of pulse `j`, after the two clear writes and
before the set writes, so the run ends with the line low and without the
timestamp write, the set writes, the counter increment and the wait of that
pulse. -/
theorem emitter_pulse_cut_short (env : ThreadEnv) (obs : List Int) (w : World) (j : Nat)
    (hj : j < running_count obs)
    (hopen : ∀ m, m < j → env.fopen m = true) (hfail : env.fopen j = false) :
    (thread_1 env obs w).status = Status.fault ∧
    (thread_1 env obs w).world.trace =
      w.trace ++ (make_periodic env.timerfd_create env.timerfd_settime 100000).events ++
        (List.range j).flatMap (pulse_events env env.timerfd_create) ++
        cut_pulse_events env j ∧
    line_high (thread_1 env obs w).world.levels = false ∧
    ((thread_1 env obs w).world.trace.filter Event.is_gpio_write).length =
      (w.trace.filter Event.is_gpio_write).length + 4 * j + 2 ∧
    ((thread_1 env obs w).world.trace.filter Event.is_sink_write).length =
      (w.trace.filter Event.is_sink_write).length + j ∧
    (thread_1 env obs w).world.trace ≠
      w.trace ++ (make_periodic env.timerfd_create env.timerfd_settime 100000).events ++
        (List.range (running_count obs)).flatMap (pulse_events env env.timerfd_create) := by
  have hopen0 : ∀ m, m < j → env.fopen (0 + m) = true := by
    intro m hm
    rw [Nat.zero_add]
    exact hopen m hm
  have hfail0 : env.fopen (0 + j) = false := by
    rw [Nat.zero_add]
    exact hfail
  obtain ⟨h1, h2, h3, _⟩ := thread_1_loop_fault env obs j 0
    (make_periodic env.timerfd_create env.timerfd_settime 100000).info
    { w with trace := w.trace ++
        (make_periodic env.timerfd_create env.timerfd_settime 100000).events }
    hj hopen0 hfail0
  rw [make_periodic_fd, ← List.range_eq_range', Nat.zero_add] at h2 h3
  have htrace : (thread_1 env obs w).world.trace =
      w.trace ++ (make_periodic env.timerfd_create env.timerfd_settime 100000).events ++
        (List.range j).flatMap (pulse_events env env.timerfd_create) ++
        cut_pulse_events env j := by
    show (thread_1_loop env 0 obs _ _).world.trace = _
    rw [h2]
    simp
  have hlev : (thread_1 env obs w).world.levels =
      levels_after w.levels
        ((List.range j).flatMap (pulse_events env env.timerfd_create) ++
          cut_pulse_events env j) := h3
  have hsink : ((thread_1 env obs w).world.trace.filter Event.is_sink_write).length =
      (w.trace.filter Event.is_sink_write).length + j := by
    rw [htrace]
    simp only [List.filter_append, List.length_append, (make_periodic_no_writes _ _ _).2,
      sink_writes_pulses]
    simp [cut_pulse_events, List.filter_cons, Event.is_sink_write]
  refine ⟨h1, htrace, ?_, ?_, hsink, ?_⟩
  · rw [hlev, levels_after_append, levels_after_cut_pulse]
    exact line_high_clr _
  · rw [htrace]
    simp only [List.filter_append, List.length_append, (make_periodic_no_writes _ _ _).1,
      gpio_writes_pulses]
    simp [cut_pulse_events, List.filter_cons, Event.is_gpio_write]
  · intro heq
    rw [heq] at hsink
    simp only [List.filter_append, List.length_append, (make_periodic_no_writes _ _ _).2,
      sink_writes_pulses] at hsink
    simp at hsink
    omega

/-- C2 at a concrete run: Running is read twice and then Stopped, the sink
opens in the first iteration and not in the second. -/
theorem emitter_pulse_cut_short_witness :
    running_count [1, 1, 0] = 2 ∧
    (thread_1 sample_env_sink_lost [1, 1, 0] sample_world).status = Status.fault ∧
    (thread_1 sample_env_sink_lost [1, 1, 0] sample_world).world.trace =
      sample_world.trace ++
        (make_periodic sample_env_sink_lost.timerfd_create
          sample_env_sink_lost.timerfd_settime 100000).events ++
        (List.range 1).flatMap
          (pulse_events sample_env_sink_lost sample_env_sink_lost.timerfd_create) ++
        cut_pulse_events sample_env_sink_lost 1 ∧
    line_high (thread_1 sample_env_sink_lost [1, 1, 0] sample_world).world.levels = false ∧
    ((thread_1 sample_env_sink_lost [1, 1, 0] sample_world).world.trace.filter
      Event.is_sink_write).length = 1 :=
  have h := emitter_pulse_cut_short sample_env_sink_lost [1, 1, 0] sample_world 1
    (by decide) (fun m hm => by interval_cases m; rfl) rfl
  ⟨by decide, h.1, h.2.1, h.2.2.1, by decide⟩

end Strobe
